import Mathlib

/-!
A shallow embedding of `src/index.js` of the express-log-mongo package, and
proofs about it.  The embedding keeps the source's function names
(`compile`, `token`, `format`, `getFormatFunction`, `getip`, `headersSent`,
`expressMongo`, `retrieveDB`, the token resolver functions, ...) and models
JavaScript values as follows: machine numbers are modelled exactly over `ℚ`
or `Int`, property maps as association lists, `undefined`/`null` as `Option`
or an explicit `undefined` value, and thrown exceptions as `Except`.
-/

attribute [local semireducible] Rat.add Rat.mul Rat.inv Rat.sub Rat.ofScientific

namespace ELM

/-- A `process.hrtime()` pair: seconds and nanoseconds.  The code subtracts the
components of two such pairs, so they are modelled as integers. -/
structure Hr where
  sec : Int
  nsec : Int
deriving DecidableEq, Repr

/-- An HTTP header value as exposed by the transport: a single string or an
array of strings (a multi-valued header). -/
inductive HVal where
  | one (s : String)
  | many (l : List String)
deriving DecidableEq, Repr

/-- A value a token resolver can put into a record field: a string, a number
(JavaScript number arithmetic is modelled exactly over the rationals), a
wall-clock date (milliseconds), an array of strings (a raw multi-valued
header), or the JavaScript `undefined` (an absent field). -/
inductive TokVal where
  | str (s : String)
  | num (q : ℚ)
  | date (d : Int)
  | arr (l : List String)
  | undefined
deriving DecidableEq, Repr

/-- Errors thrown by the embedded code.  `typeError` models a JavaScript
TypeError (non-string format given to `compile`, calling a non-function,
reading a property of `undefined`); `badBody` models the SyntaxError thrown
by the Function constructor when `compile` assembles an invalid function
body; `rangeError` is unused but kept for completeness of `toFixed`. -/
inductive JSError where
  | typeError
  | badBody
  | rangeError
deriving DecidableEq, Repr

/-- Ambient process state read by resolvers: the wall clock (`new Date()`),
in milliseconds since the epoch. -/
structure Env where
  now : Int
deriving DecidableEq, Repr

/-- The raw socket of a request (`req.connection`). -/
structure Conn where
  remoteAddress : Option String
deriving DecidableEq, Repr

/-- Read-only view of an incoming request.  Incoming header names are stored
lower-cased, as the Node transport delivers them.  `credentialsName` is the
user name produced by the external basic-auth parser for this request
(`auth(req)` in the source), if credentials are present.  The `_startAt`,
`_startTime` and `_remoteAddress` fields are the mutable slots the middleware
stamps onto the request object. -/
structure Req where
  method : Option String := none
  url : Option String := none
  originalUrl : Option String := none
  ip : Option String := none
  connection : Option Conn := none
  httpVersionMajor : Nat := 1
  httpVersionMinor : Nat := 1
  headers : List (String × HVal) := []
  credentialsName : Option String := none
  _remoteAddress : Option String := none
  _startAt : Option Hr := none
  _startTime : Option Int := none
deriving DecidableEq, Repr

/-- Read-only view of a response.  `headersSent` is the boolean the transport
exposes once it supports it, `_header` the legacy fallback field.  Response
header names are looked up lower-cased, as `res.getHeader` does. -/
structure Res where
  statusCode : Option Int := none
  headersSent : Option Bool := none
  _header : Bool := false
  responseHeaders : List (String × HVal) := []
  _startAt : Option Hr := none
  _startTime : Option Int := none
deriving DecidableEq, Repr

/-- A structured log record: the ordered fields of the object literal a
compiled builder produces. -/
abbrev Rec := List (String × TokVal)

/-- A token resolver `(req, res, arg) => value`.  The `Env` argument threads
the ambient wall clock that `new Date()` reads; resolvers can throw (the
`req` token calls `field.toLowerCase()` on its argument, which throws on
`undefined`), hence the `Except`. -/
abbrev Resolver := Env → Req → Res → Option String → Except JSError TokVal

/-- The recognized options of the middleware factory. -/
structure Opts where
  url : Option String := none
  db : Option String := none
  collection : Option String := none
  immediate : Bool := false
  skip : Option (Req → Res → Bool) := none

/-- A value stored in a property of the exported `expressMongo` function
object: a token resolver, a format string, the raw options object that
`expressMongo['options'] = options` stores, or `undefined`. -/
inductive JSVal where
  | fn (f : Resolver)
  | str (s : String)
  | opts (o : Opts)
  | undefined

/-- The property map of the exported `expressMongo` function object.  Both
the token registry and the format catalog are properties of this one object
(`expressMongo[name] = ...` in `token` and `format`), as is the `options`
slot written by the factory.  The host function object's prototype chain
(inherited members such as `call` or `bind`) is not modelled: an unassigned
property reads as `undefined`. -/
abbrev Registry := List (String × JSVal)

/-- A compiled record builder `(tokens, req, res) => record`. -/
abbrev Builder := Registry → Env → Req → Res → Except JSError Rec

/-- A format-line function `(tokens, req, res) => record or null`: what the
middleware calls at the logging trigger.  A `none` result models a
null/undefined line. -/
abbrev FmtFn := Registry → Env → Req → Res → Except JSError (Option Rec)

/-- Read a property of the function object; `none` is `undefined`. -/
def getProp (r : Registry) (k : String) : Option JSVal :=
  (r.find? (fun p => p.1 == k)).map (·.2)

/-- Assign a property of the function object: overwrite the existing entry
in place, or append a new one. -/
def setProp : Registry → String → JSVal → Registry
  | [], k, v => [(k, v)]
  | p :: rest, k, v => if p.1 = k then (k, v) :: rest else p :: setProp rest k v

/-- Define a token function with the given name (source `token`,
lines 407-410): the plain property assignment `expressMongo[name] = fn`. -/
def token (r : Registry) (name : String) (fn : Resolver) : Registry :=
  setProp r name (.fn fn)

/-- Define a format with the given name (source `format`, lines 336-339):
the plain property assignment `expressMongo[name] = fmt`n -- the very same
assignment `token` performs, on the very same object. -/
def format (r : Registry) (name : String) (fmt : JSVal) : Registry :=
  setProp r name fmt

/-- JavaScript truthiness of a stored property value: functions and objects
are truthy, a string is truthy unless empty, `undefined` is falsy. -/
def truthy : JSVal → Bool
  | .fn _ => true
  | .str s => s != ""
  | .opts _ => true
  | .undefined => false

/-- JavaScript `a || b` on property values. -/
def jsOr (a b : JSVal) : JSVal :=
  if truthy a then a else b

/-- Property read as a JavaScript value (`undefined` when missing). -/
def getPropV (r : Registry) (k : String) : JSVal :=
  (getProp r k).getD .undefined

/-- JavaScript `a || b` restricted to string-or-undefined operands: an
operand is falsy when it is `undefined` or the empty string. -/
def jsOrStr (a b : Option String) : Option String :=
  match a with
  | some s => if s = "" then b else some s
  | none => b

/-- Get the request IP address (source `getip`, lines 367-372):
`req.ip || req._remoteAddress || (req.connection && req.connection.remoteAddress) || undefined`. -/
def getip (req : Req) : Option String :=
  jsOrStr req.ip (jsOrStr req._remoteAddress
    (jsOrStr (match req.connection with
              | some c => c.remoteAddress
              | none => none) none))

/-- Determine if the response headers have been sent (source `headersSent`,
lines 382-386): use `res.headersSent` when it is a boolean, else fall back
to `Boolean(res._header)`. -/
def headersSent (res : Res) : Bool :=
  match res.headersSent with
  | some b => b
  | none => res._header

/-- Look up a header in a header map. -/
def headerGet (hs : List (String × HVal)) (k : String) : Option HVal :=
  (hs.find? (fun p => p.1 == k)).map (·.2)

/-- JavaScript truthiness of a header value: `""` is falsy, an array is
truthy. -/
def hvTruthy : HVal → Bool
  | .one s => s != ""
  | .many _ => true

/-- JavaScript `a || b` on header-or-undefined operands. -/
def jsOrHV (a b : Option HVal) : Option HVal :=
  match a with
  | some h => if hvTruthy h then some h else b
  | none => b

/-- A header value as stored into a record without joining (the `referrer`
and `user-agent` tokens return the header verbatim). -/
def hvRaw : HVal → TokVal
  | .one s => .str s
  | .many l => .arr l

/-- A header value with array values joined by `", "` (the `req` and `res`
tokens: `Array.isArray(header) ? header.join(', ') : header`). -/
def hvJoin : HVal → TokVal
  | .one s => .str s
  | .many l => .str (String.intercalate ", " l)

/-- ASCII lower-casing of one character. -/
def lowerChar (c : Char) : Char :=
  if 65 ≤ c.toNat ∧ c.toNat ≤ 90 then Char.ofNat (c.toNat + 32) else c

/-- `field.toLowerCase()` / the lower-casing `res.getHeader` performs on its
argument; the header names the model handles are ASCII. -/
def lowerStr (s : String) : String :=
  String.mk (s.data.map lowerChar)

/-- An optional string as a record value (`undefined` when absent). -/
def optTok : Option String → TokVal
  | some s => .str s
  | none => .undefined

/-- The digit count `toFixed` uses: `digits === undefined ? 3 : digits`.
The compiled code passes the bracket argument as a string and `toFixed`
coerces it with ToIntegerOrInfinity; nonnegative decimal strings are
modelled, anything else coerces to 0 (as NaN does). -/
def digitsOfArg : Option String → Nat
  | none => 3
  | some s => s.toNat?.getD 0

/-- The floor of a rational, written out on the numerator and denominator so
that it evaluates by computation. -/
def ratFloor (q : ℚ) : Int :=
  q.num / (q.den : Int)

/-- `x.toFixed(d)` followed by `parseFloat`, exactly over `ℚ`:
`Number.prototype.toFixed` picks the integer `n` closest to `x * 10 ^ d`,
the larger one on ties, i.e. `⌊x * 10 ^ d + 1/2⌋`, and `parseFloat` of the
produced decimal string reads back `n / 10 ^ d`. -/
def toFixedQ (x : ℚ) (d : Nat) : ℚ :=
  ((ratFloor (x * 10 ^ d + 1 / 2) : Int) : ℚ) / 10 ^ d

/-- Request url token (source `getUrlToken`): `req.originalUrl || req.url`. -/
def getUrlToken : Resolver := fun _ req _ _ =>
  .ok (optTok (jsOrStr req.originalUrl req.url))

/-- Request method token (source `getMethodToken`): `req.method`. -/
def getMethodToken : Resolver := fun _ req _ _ =>
  .ok (optTok req.method)

/-- Response time token (source `getResponseTimeToken`, lines 189-201):
absent unless both `req._startAt` and `res._startAt` are set, else
`(res._startAt[0] - req._startAt[0]) * 1e3 + (res._startAt[1] - req._startAt[1]) * 1e-6`
rounded through `toFixed(digits === undefined ? 3 : digits)` and
`parseFloat`. -/
def getResponseTimeToken : Resolver := fun _ req res arg =>
  match req._startAt, res._startAt with
  | some a, some b =>
      .ok (.num (toFixedQ
        (((b.sec : ℚ) - (a.sec : ℚ)) * 1000 +
         ((b.nsec : ℚ) - (a.nsec : ℚ)) * (1 / 1000000))
        (digitsOfArg arg)))
  | _, _ => .ok .undefined

/-- Current date token (source `getDateToken`): `new Date()`; the format
argument is ignored in this version. -/
def getDateToken : Resolver := fun env _ _ _ =>
  .ok (.date env.now)

/-- Response status token (source `getStatusToken`): the status code once
headers have been sent, else `undefined`. -/
def getStatusToken : Resolver := fun _ _ res _ =>
  .ok (if headersSent res then
        match res.statusCode with
        | some n => .num (n : ℚ)
        | none => .undefined
       else .undefined)

/-- Referrer token (source `getReferrerToken`):
`req.headers['referer'] || req.headers['referrer']`, returned verbatim. -/
def getReferrerToken : Resolver := fun _ req _ _ =>
  .ok (match jsOrHV (headerGet req.headers "referer")
               (headerGet req.headers "referrer") with
       | some h => hvRaw h
       | none => .undefined)

/-- The `remote-addr` token.  The source registers `getip` itself; the extra
response and argument parameters a token call passes are simply ignored by
that unary JavaScript function. -/
def getipToken : Resolver := fun _ req _ _ =>
  .ok (optTok (getip req))

/-- Remote user token (source `getRemoteUserToken`): the user name from the
parsed basic-auth credentials, else `undefined`. -/
def getRemoteUserToken : Resolver := fun _ req _ _ =>
  .ok (optTok req.credentialsName)

/-- HTTP version token (source `getHttpVersionToken`):
`parseFloat(req.httpVersionMajor + '.' + req.httpVersionMinor)`, i.e. the
decimal number whose integer part is the major version and whose fractional
digits are the decimal digits of the minor version. -/
def getHttpVersionToken : Resolver := fun _ req _ _ =>
  .ok (.num ((req.httpVersionMajor : ℚ) +
    (req.httpVersionMinor : ℚ) / 10 ^ (Nat.repr req.httpVersionMinor).length))

/-- User agent token (source `getUserAgentToken`):
`req.headers['user-agent']`, returned verbatim. -/
def getUserAgentToken : Resolver := fun _ req _ _ =>
  .ok (match headerGet req.headers "user-agent" with
       | some h => hvRaw h
       | none => .undefined)

/-- Request header token (source `getRequestToken`):
`req.headers[field.toLowerCase()]`, arrays joined with `", "`.  Called
without a bracket argument, `field.toLowerCase()` throws a TypeError. -/
def getRequestToken : Resolver := fun _ req _ arg =>
  match arg with
  | some field =>
      .ok (match headerGet req.headers (lowerStr field) with
           | some h => hvJoin h
           | none => .undefined)
  | none => .error .typeError

/-- Response header token (source `getResponseHeader`): `undefined` until
headers are sent, then `res.getHeader(field)` (a case-insensitive lookup),
arrays joined with `", "`. -/
def getResponseHeader : Resolver := fun _ _ res arg =>
  if headersSent res then
    match arg with
    | some field =>
        .ok (match headerGet res.responseHeaders (lowerStr field) with
             | some h => hvJoin h
             | none => .undefined)
    | none => .error .typeError
  else .ok .undefined

/-- The built-in `default` format string (source line 155). -/
def defaultFmtStr : String :=
  ":date :method :url :status :remote-addr :response-time :http-version :remote-user :res[content-length] :referrer :user-agent"

/-- The built-in `short` format string (source line 161). -/
def shortFmtStr : String :=
  ":remote-addr :remote-user :method :url :http-version :status :res[content-length] :response-time"

/-- The built-in `tiny` format string (source line 167). -/
def tinyFmtStr : String :=
  ":method :url :status :res[content-length] :response-time"

/-- The property map of the exported function object after module load: the
`format` and `token` registrations of source lines 155-295, in order. -/
def initRegistry : Registry :=
  let r := format [] "default" (.str defaultFmtStr)
  let r := format r "short" (.str shortFmtStr)
  let r := format r "tiny" (.str tinyFmtStr)
  let r := token r "url" getUrlToken
  let r := token r "method" getMethodToken
  let r := token r "response-time" getResponseTimeToken
  let r := token r "date" getDateToken
  let r := token r "status" getStatusToken
  let r := token r "referrer" getReferrerToken
  let r := token r "remote-addr" getipToken
  let r := token r "remote-user" getRemoteUserToken
  let r := token r "http-version" getHttpVersionToken
  let r := token r "user-agent" getUserAgentToken
  let r := token r "req" getRequestToken
  token r "res" getResponseHeader

/-- One piece of the decomposition the global regex replace of `compile`
performs on the format string: an unmatched literal character, or one
placeholder match `:name` / `:name[arg]`. -/
inductive Seg where
  | lit (c : Char)
  | tok (name : String) (arg : Option String)
deriving DecidableEq, Repr

/-- A character matched by the `[-\w]` class of the placeholder pattern:
ASCII letters, digits, underscore, hyphen. -/
def tokenChar (c : Char) : Bool :=
  (97 ≤ c.toNat && c.toNat ≤ 122) || (65 ≤ c.toNat && c.toNat ≤ 90) ||
  (48 ≤ c.toNat && c.toNat ≤ 57) || c == '_' || c == '-'

/-- Left-to-right scan of the format text for the pattern
`:([-\w]{2,})(?:\[([^\]]+)\])?`, exactly as a global regex replace walks the
string: at a `:` take the maximal run of `[-\w]` characters; if it has at
least two characters it is a placeholder name, optionally followed by
`[arg]` with a nonempty bracket argument (when the bracket group does not
close, the name alone is the match and the `[` is rescanned as literal
text); otherwise the `:` is a literal character and the scan resumes on the
next character.  The fuel is one more than the character count; every step
consumes at least one character, so it never runs out. -/
def scanGo : Nat → List Char → List Seg
  | 0, _ => []
  | _ + 1, [] => []
  | fuel + 1, ':' :: rest =>
    let name := rest.takeWhile tokenChar
    let rest' := rest.dropWhile tokenChar
    if 2 ≤ name.length then
      match rest' with
      | '[' :: r2 =>
        let arg := r2.takeWhile (fun c => !(c == ']'))
        let r3 := r2.dropWhile (fun c => !(c == ']'))
        match r3, arg with
        | ']' :: r4, _ :: _ =>
            .tok (String.mk name) (some (String.mk arg)) :: scanGo fuel r4
        | _, _ => .tok (String.mk name) none :: scanGo fuel rest'
      | _ => .tok (String.mk name) none :: scanGo fuel rest'
    else .lit ':' :: scanGo fuel rest
  | fuel + 1, c :: rest => .lit c :: scanGo fuel rest

/-- Scan a character list with enough fuel. -/
def scan (l : List Char) : List Seg :=
  scanGo (l.length + 1) l

/-- The defensive quote escaping of `compile` (source line 310):
`format.replace(/"/g, '\\"')`. -/
def escapeQuotes (s : String) : String :=
  String.mk (s.data.foldr
    (fun c acc => if c == '"' then '\\' :: '"' :: acc else c :: acc) [])

/-- The decomposition of a format string as `compile` sees it: quotes
escaped first, then the placeholder scan. -/
def scanSegs (fmt : String) : List Seg :=
  scan (escapeQuotes fmt).data

/-- The placeholder entries of a scanned format, in order. -/
def entriesOf (segs : List Seg) : List (String × Option String) :=
  segs.filterMap (fun s => match s with
    | .tok n a => some (n, a)
    | .lit _ => none)

/-- ECMAScript whitespace and line terminators (the ASCII ones): the
characters that may harmlessly stand between the properties of the object
literal `compile` assembles. -/
def isJsWs (c : Char) : Bool :=
  c == ' ' || c == '\t' || c == '\n' || c == '\r' || c.toNat == 11 || c.toNat == 12

/-- Whether every literal character of a decomposition is whitespace. -/
def litWhitespace (segs : List Seg) : Bool :=
  segs.all (fun s => match s with
    | .lit c => isJsWs c
    | .tok _ _ => true)

/-- Drop from the decomposition the final character of the text `compile`
assembles, mirroring `js.substring(0, js.length - 1)`: when the format ends
with a placeholder the dropped character is the trailing comma of its
generated property (which never affects well-formedness); when it ends with
a literal character that character is dropped. -/
def trimSegs (segs : List Seg) : List Seg :=
  match segs.getLast? with
  | some (.lit _) => segs.dropLast
  | _ => segs

/-- The Function-constructor syntax check of `compile`, on the emitted body
`'  "use strict"\n  return {' + replaced-text-minus-last-char + '}'`.  For
an empty format the dropped character is the opening `{` itself and the body
never parses.  Otherwise the body is interleaved literal text and generated
properties `"name": tokens["name"](req, res, "arg"),`; it is a well-formed
object literal exactly when the surviving literal characters are all
whitespace.  Formats with other surviving literal characters are modelled as
an immediate SyntaxError; for a few contrived residues the host would accept
the body or defer the failure to call time (e.g. a lone identifier-like
residue becomes a shorthand property that fails only on evaluation), but in
either case the builder never yields the placeholder record the spec
describes. -/
def validFmt (fmt : String) : Bool :=
  (fmt != "") && litWhitespace (trimSegs (scanSegs fmt))

/-- Evaluate one generated property `tokens["name"](req, res, "arg")`:
look the name up on the function object and call it; calling a missing or
non-function property throws a TypeError. -/
def evalEntry (r : Registry) (env : Env) (req : Req) (res : Res)
    (e : String × Option String) : Except JSError TokVal :=
  match getProp r e.1 with
  | some (.fn f) => f env req res e.2
  | _ => .error .typeError

/-- Insert a field into the record under construction with JavaScript
object-literal semantics: a duplicate key keeps its original position and
takes the new value. -/
def insertJS : Rec → String → TokVal → Rec
  | [], k, v => [(k, v)]
  | p :: rest, k, v => if p.1 = k then (k, v) :: rest else p :: insertJS rest k v

/-- Evaluate the generated properties left to right, assembling the record;
the first thrown error aborts the whole record. -/
def buildAux (r : Registry) (env : Env) (req : Req) (res : Res) :
    List (String × Option String) → Rec → Except JSError Rec
  | [], acc => .ok acc
  | e :: es, acc =>
    match evalEntry r env req res e with
    | .error err => .error err
    | .ok v => buildAux r env req res es (insertJS acc e.1 v)

/-- The record builder `compile` returns for a format string: one generated
property per placeholder of the scan, keyed by the bare token name. -/
def recordBuilder (fmt : String) : Builder :=
  fun r env req res => buildAux r env req res (entriesOf (scanSegs fmt)) []

/-- Compile a format string into a record builder (source `compile`,
lines 305-326): escape quotes, replace every placeholder match by a
generated object-literal property (literal text stays in the generated
body verbatim), drop the final character of the assembled text, and hand
the body to the Function constructor, whose syntax check `validFmt`
models. -/
def compileStr (fmt : String) : Except JSError Builder :=
  if validFmt fmt then .ok (recordBuilder fmt) else .error .badBody

/-- `compile` on an arbitrary argument (source lines 305-308): a non-string
argument throws `TypeError('argument format must be a string')` before
anything else happens. -/
def compileJS : JSVal → Except JSError Builder
  | .str s => compileStr s
  | _ => .error .typeError

/-- What `getFormatFunction` returns: either a compiled record builder, or
a function found on the function object returned as-is -- which, because
tokens and formats share that object, can be a token resolver. -/
inductive FormatFn where
  | ofBuilder (b : Builder)
  | ofResolver (f : Resolver)

/-- Lookup and compile a named format function (source `getFormatFunction`,
lines 349-357): `var fmt = expressMongo[name] || name || expressMongo.default`,
then return `fmt` itself when it is a function, else `compile(fmt)`. -/
def getFormatFunction (r : Registry) (name : String) : Except JSError FormatFn :=
  match jsOr (jsOr (getPropV r name) (.str name)) (getPropV r "default") with
  | .fn f => .ok (.ofResolver f)
  | v => (compileJS v).map .ofBuilder

/-- Use a `getFormatFunction` result as the middleware's line function.  A
compiled builder's record becomes the line.  A token resolver in this
position is invoked by the source as `formatLine(expressMongo, req, res)`,
binding the registry and the request to the resolver's request and response
parameters; that dynamic misuse is outside the model and is mapped to a
TypeError (no claim exercises it). -/
def applyFormatFn : FormatFn → FmtFn
  | .ofBuilder b => fun r env req res => (b r env req res).map some
  | .ofResolver _ => fun _ _ _ _ => .error .typeError

/-- The format argument accepted by the middleware factory: a format name /
raw template string, or a format-line function used as-is. -/
inductive FmtArg where
  | str (s : String)
  | line (f : FmtFn)

/-- The per-instance state the factory closes over for its `logger`. -/
structure LoggerCfg where
  immediate : Bool
  skip : Option (Req → Res → Bool)
  url : Option String
  db : Option String
  collection : Option String
  formatLine : FmtFn

/-- Create a logger middleware (source `expressMongo`, lines 71-98): default
the format to `'default'`, emit a deprecation warning (the returned Bool)
when any of `url`, `db`, `collection` is missing, resolve the format line
through `getFormatFunction` unless a function was passed (a thrown
compile error propagates out of the factory), and store the *raw* `options`
argument in the module-global `expressMongo['options']` slot. -/
def expressMongo (r : Registry) (fmtArg : Option FmtArg) (options : Option Opts) :
    Except JSError (Registry × LoggerCfg × Bool) :=
  let opts := options.getD {}
  let warned := opts.url.isNone || opts.db.isNone || opts.collection.isNone
  let fl : Except JSError FmtFn :=
    match fmtArg with
    | some (.line f) => .ok f
    | some (.str s) => (getFormatFunction r s).map applyFormatFn
    | none => (getFormatFunction r "default").map applyFormatFn
  fl.map (fun f =>
    (setProp r "options" (match options with
      | some o => .opts o
      | none => .undefined),
     { immediate := opts.immediate, skip := opts.skip, url := opts.url,
       db := opts.db, collection := opts.collection, formatLine := f },
     warned))

/-- One call handed to the persistence sink (`insertDB(url, db, collection,
[line])`): the target identifiers and the single-element batch. -/
structure SinkCall where
  url : Option String
  db : Option String
  collection : Option String
  items : List Rec
deriving DecidableEq, Repr

/-- The `logRequest` trigger body (source lines 115-134): consult the skip
predicate, evaluate the format line, drop a null/undefined line, otherwise
issue exactly one sink call with a single-element batch.  A sink failure is
caught and only reported, so the call itself is the observable outcome; an
error thrown by the format line propagates. -/
def logRequest (cfg : LoggerCfg) (r : Registry) (env : Env) (req : Req) (res : Res) :
    Except JSError (List SinkCall) :=
  if (match cfg.skip with
      | some p => p req res
      | none => false) then
    .ok []
  else
    match cfg.formatLine r env req res with
    | .error e => .error e
    | .ok none => .ok []
    | .ok (some line) => .ok [⟨cfg.url, cfg.db, cfg.collection, [line]⟩]

/-- The request object after the logger's synchronous prologue (source
lines 104-113): `_startAt`/`_startTime` cleared then stamped by
`recordStartTime` with the arrival clocks, and `_remoteAddress` cached from
`getip` on the incoming request. -/
def reqAtStart (req : Req) (t : Hr) (d : Int) : Req :=
  { req with _remoteAddress := getip req, _startAt := some t, _startTime := some d }

/-- The response object right after the logger's prologue (source lines
109-110): the start slots cleared, nothing stamped yet. -/
def resAtStart (res : Res) : Res :=
  { res with _startAt := none, _startTime := none }

/-- The response object at the finish trigger of a deferred-mode request:
the state the application left it in, with the start slots stamped by the
`onHeaders(res, recordStartTime)` listener if and only if the
header-emission event fired (with the clocks of that moment), and still
cleared otherwise. -/
def resAtFinish (res : Res) : Option (Hr × Int) → Res
  | some (t, d) => { res with _startAt := some t, _startTime := some d }
  | none => { res with _startAt := none, _startTime := none }

/-- One request through the middleware configured for immediate logging
(source lines 136-138): the prologue runs, then `logRequest` fires at once,
before any response activity -- no `onHeaders` listener is installed.
Returns the stamped request, the response as `logRequest` saw it, and the
sink calls made. -/
def runImmediate (cfg : LoggerCfg) (r : Registry) (env : Env)
    (req : Req) (res : Res) (t : Hr) (d : Int) :
    Except JSError (Req × Res × List SinkCall) :=
  (logRequest cfg r env (reqAtStart req t d) (resAtStart res)).map
    (fun cs => (reqAtStart req t d, resAtStart res, cs))

/-- One request through the middleware in deferred mode (source lines
139-145): the prologue runs at arrival; `logRequest` fires at the finish
event against the final response view, whose start slots reflect whether
the header-emission event fired. -/
def runDeferred (cfg : LoggerCfg) (r : Registry) (env : Env)
    (req : Req) (resFin : Res) (t : Hr) (d : Int) (hdr : Option (Hr × Int)) :
    Except JSError (Req × Res × List SinkCall) :=
  (logRequest cfg r env (reqAtStart req t d) (resAtFinish resFin hdr)).map
    (fun cs => (reqAtStart req t d, resAtFinish resFin hdr, cs))

/-- The filter/sort/limit/skip options of the query interface. -/
structure QueryOpts where
  find : Option String := none
  sort : Option String := none
  limit : Option Nat := none
  skipN : Option Nat := none
deriving DecidableEq, Repr

/-- One call issued to the persistence query interface. -/
structure FindCall where
  url : Option String
  db : Option String
  collection : Option String
  find : Option String
  sort : Option String
  limit : Nat
  skipN : Nat
deriving DecidableEq, Repr

/-- JavaScript `a || d` on an optional number (0 is falsy). -/
def jsOrNat (a : Option Nat) (d : Nat) : Nat :=
  match a with
  | some n => if n = 0 then d else n
  | none => d

/-- The query the source's `findDB` (lines 457-484) runs: defaults applied
with `||`, so `find`/`sort` default to the empty document (`none` here),
`limit` to 1000 and `skip` to 0. -/
def findDB (url db collection : Option String) (o : QueryOpts) : FindCall :=
  ⟨url, db, collection, jsOrStr o.find none, jsOrStr o.sort none,
   jsOrNat o.limit 1000, jsOrNat o.skipN 0⟩

/-- Retrieve the db results (source `retrieveDB`, lines 493-496): read the
module-global `expressMongo['options']` slot and query its target.  When
the slot holds `undefined` (or was never written), `opts.url` throws a
TypeError before any query is issued; when it holds a non-object such as a
string or function, the property reads yield `undefined` targets. -/
def retrieveDB (r : Registry) (q : QueryOpts) : Except JSError FindCall :=
  match getProp r "options" with
  | some (.opts o) => .ok (findDB o.url o.db o.collection q)
  | some (.str _) => .ok (findDB none none none q)
  | some (.fn _) => .ok (findDB none none none q)
  | some .undefined => .error .typeError
  | none => .error .typeError

instance {ε α : Type} [DecidableEq ε] [DecidableEq α] : DecidableEq (Except ε α) :=
  fun a b =>
    match a, b with
    | .ok x, .ok y => if h : x = y then .isTrue (by rw [h]) else .isFalse (by simp [h])
    | .error x, .error y => if h : x = y then .isTrue (by rw [h]) else .isFalse (by simp [h])
    | .ok _, .error _ => .isFalse (by simp)
    | .error _, .ok _ => .isFalse (by simp)

/-- A fixed ambient wall clock for concrete evaluations. -/
def env0 : Env := ⟨1700000000000⟩

/-- The arrival monotonic clock of the concrete scenarios. -/
def t0 : Hr := ⟨0, 0⟩

/-- The arrival wall clock of the concrete scenarios. -/
def d0 : Int := 1700000000000

/-- A concrete request: `GET /foo`, no basic-auth credentials, two plain
headers `a: 1` and `b: 2`. -/
def req0 : Req :=
  { method := some "GET", originalUrl := some "/foo", url := some "/foo",
    ip := some "127.0.0.1", headers := [("a", .one "1"), ("b", .one "2")] }

/-- A concrete response before any header activity. -/
def res0 : Res :=
  { statusCode := some 200, headersSent := some false }

/-- The concrete request of the `tiny` scenario, with its arrival timestamp
already stamped. -/
def req1 : Req :=
  { method := some "GET", originalUrl := some "/foo",
    url := some "/foo", _startAt := some t0, _startTime := some d0 }

/-- The concrete response of the `tiny` scenario: status 200,
`Content-Length: 5`, headers emitted 12.345 ms after start. -/
def res1 : Res :=
  { statusCode := some 200, headersSent := some true, _startTime := some (d0 + 12),
    responseHeaders := [("content-length", .one "5")], _startAt := some ⟨0, 12345000⟩ }

/-- The keys of a record, in order. -/
def recKeys (rec : Rec) : List String :=
  rec.map Prod.fst

/-- Read a field of a record (`undefined` when the key is missing). -/
def jsLookup (rec : Rec) (n : String) : Option TokVal :=
  (rec.find? (fun p => p.1 == n)).map (·.2)

/-- The last placeholder entry with the given name, if any. -/
def lastEntry (es : List (String × Option String)) (n : String) :
    Option (String × Option String) :=
  es.foldl (fun acc e => if e.1 = n then some e else acc) none

/-- The value of a monotonic-clock pair in nanoseconds, as a rational: the
specification-side reading of a timestamp. -/
def hrNanos (h : Hr) : ℚ :=
  (h.sec : ℚ) * 1000000000 + (h.nsec : ℚ)

/-- A trivial format-line function that always produces a null line; used as
a concrete function-format argument in witnesses. -/
def noopLine : FmtFn := fun _ _ _ _ => .ok none

/-- Concrete options for an immediate-mode middleware instance. -/
def optsImm : Opts :=
  { url := some "u", db := some "d", collection := some "c", immediate := true }

/-- A concrete configuration whose skip predicate accepts every request. -/
def cfgSkipAll : LoggerCfg :=
  { immediate := true, skip := some fun _ _ => true, url := some "u",
    db := some "d", collection := some "c", formatLine := noopLine }

/-- An end-to-end immediate-mode run with the single-token format
`":response-time"`: construct the middleware, then push one request through
it at arrival time, keeping only the sink calls. -/
def counterC3run : Except JSError (List SinkCall) :=
  match expressMongo initRegistry (some (.str ":response-time")) (some optsImm) with
  | .ok (r2, cfg, _) => (runImmediate cfg r2 env0 req0 res0 t0 d0).map (fun x => x.2.2)
  | .error e => .error e

/-- An end-to-end immediate-mode run with the named format `tiny`, keeping
only the sink calls. -/
def counterC4run : Except JSError (List SinkCall) :=
  match expressMongo initRegistry (some (.str "tiny")) (some optsImm) with
  | .ok (r2, cfg, _) => (runImmediate cfg r2 env0 req0 res0 t0 d0).map (fun x => x.2.2)
  | .error e => .error e

/-- Compile a template with the unregistered token name `bogus` and evaluate
the builder on the standard registry. -/
def bogusEval : Except JSError Rec :=
  match compileStr ":bogus :method" with
  | .ok b => b initRegistry env0 req0 res0
  | .error e => .error e

/-- Resolve the named format `tiny` through the catalog and evaluate its
builder on the scenario request/response (status 200, `Content-Length: 5`,
headers emitted 12.345 ms after start). -/
def tinyEval : Except JSError Rec :=
  match getFormatFunction initRegistry "tiny" with
  | .ok (.ofBuilder b) => b initRegistry env0 req1 res1
  | .ok (.ofResolver _) => .error .typeError
  | .error e => .error e

/-- Compile a template with duplicate `req` placeholders carrying different
bracket arguments and evaluate it on the standard registry. -/
def dupArgsEval : Except JSError Rec :=
  match compileStr ":req[a] :req[b]" with
  | .ok b => b initRegistry env0 req0 res0
  | .error e => .error e

/-- Concrete options for the first middleware instance of the retrieveDB
witness. -/
def o1w : Opts := { url := some "u1", db := some "d1", collection := some "c1" }

/-- Concrete options for the second middleware instance of the retrieveDB
witness. -/
def o2w : Opts := { url := some "u2", db := some "d2", collection := some "c2" }

/-- Writing a property and reading it back yields the written value. -/
theorem getProp_setProp_self (r : Registry) (k : String) (v : JSVal) :
    getProp (setProp r k v) k = some v := by
  induction r with
  | nil => simp [getProp, setProp, List.find?]
  | cons p rest ih =>
    by_cases h : p.1 = k
    · simp [setProp, h, getProp, List.find?]
    · simp only [setProp, if_neg h, getProp, List.find?]
      have hb : (p.1 == k) = false := by simp [h]
      rw [hb]
      exact ih

/-- The keys after an object-literal insert: unchanged when the key is
already present, the key appended otherwise. -/
theorem recKeys_insertJS (acc : Rec) (k : String) (v : TokVal) :
    recKeys (insertJS acc k v) =
      if k ∈ recKeys acc then recKeys acc else recKeys acc ++ [k] := by
  simp only [recKeys]
  induction acc with
  | nil => simp [insertJS]
  | cons p rest ih =>
    by_cases h : p.1 = k
    · subst h
      simp [insertJS]
    · simp only [insertJS, if_neg h, List.map_cons]
      have hcons : (k ∈ p.1 :: List.map Prod.fst rest) ↔ (k ∈ List.map Prod.fst rest) := by
        constructor
        · intro hk
          rcases List.mem_cons.mp hk with h1 | h1
          · exact absurd h1.symm h
          · exact h1
        · exact fun hk => List.mem_cons_of_mem _ hk
      by_cases hm : k ∈ List.map Prod.fst rest
      · rw [if_pos (hcons.mpr hm)]
        rw [ih, if_pos hm]
      · rw [if_neg (fun hk => hm (hcons.mp hk))]
        rw [ih, if_neg hm]
        simp

/-- Key membership after an object-literal insert. -/
theorem mem_recKeys_insertJS (acc : Rec) (k : String) (v : TokVal) (n : String) :
    n ∈ recKeys (insertJS acc k v) ↔ n ∈ recKeys acc ∨ n = k := by
  rw [recKeys_insertJS]
  by_cases h : k ∈ recKeys acc
  · simp only [if_pos h]
    constructor
    · exact fun hn => Or.inl hn
    · rintro (hn | rfl)
      · exact hn
      · exact h
  · simp [if_neg h]

/-- Membership in an insert result comes from the old record or is the newly
written pair. -/
theorem mem_insertJS (acc : Rec) (k : String) (v : TokVal) (p : String × TokVal)
    (hp : p ∈ insertJS acc k v) : p ∈ acc ∨ p = (k, v) := by
  induction acc with
  | nil => simp [insertJS] at hp; simp [hp]
  | cons q rest ih =>
    by_cases h : q.1 = k
    · simp only [insertJS, if_pos h] at hp
      rcases List.mem_cons.mp hp with h1 | h1
      · exact Or.inr h1
      · exact Or.inl (List.mem_cons_of_mem q h1)
    · simp only [insertJS, if_neg h] at hp
      rcases List.mem_cons.mp hp with h1 | h1
      · exact Or.inl (h1 ▸ List.mem_cons_self q rest)
      · rcases ih h1 with h2 | h2
        · exact Or.inl (List.mem_cons_of_mem q h2)
        · exact Or.inr h2

/-- Field lookup after an object-literal insert. -/
theorem jsLookup_insertJS (acc : Rec) (k : String) (v : TokVal) (n : String) :
    jsLookup (insertJS acc k v) n = if n = k then some v else jsLookup acc n := by
  simp only [jsLookup]
  induction acc with
  | nil =>
    by_cases h : n = k
    · subst h
      simp [insertJS, List.find?]
    · have hb : (k == n) = false := by
        simp only [beq_eq_false_iff_ne, ne_eq]
        exact fun hh => h hh.symm
      simp [insertJS, List.find?, hb, h]
  | cons q rest ih =>
    by_cases h : q.1 = k
    · subst h
      simp only [insertJS, if_pos rfl]
      by_cases hn : n = q.1
      · subst hn
        simp [List.find?]
      · have hb : (q.1 == n) = false := by
          simp only [beq_eq_false_iff_ne, ne_eq]
          exact fun hh => hn hh.symm
        simp [List.find?, hb, hn]
    · simp only [insertJS, if_neg h]
      by_cases hn : n = q.1
      · subst hn
        have hk : ¬ q.1 = k := h
        simp [List.find?, if_neg hk]
      · have hb : (q.1 == n) = false := by
          simp only [beq_eq_false_iff_ne, ne_eq]
          exact fun hh => hn hh.symm
        simp only [List.find?, hb]
        exact ih

/-- Inserting preserves key uniqueness. -/
theorem nodup_insertJS (acc : Rec) (k : String) (v : TokVal)
    (h : (recKeys acc).Nodup) : (recKeys (insertJS acc k v)).Nodup := by
  rw [recKeys_insertJS]
  by_cases hm : k ∈ recKeys acc
  · simpa [hm] using h
  · simp only [if_neg hm]
    simp [List.nodup_append, h, hm]

/-- A successful build evaluated every entry successfully. -/
theorem buildAux_all_ok (r : Registry) (env : Env) (req : Req) (res : Res)
    (es : List (String × Option String)) (acc rec : Rec)
    (h : buildAux r env req res es acc = .ok rec) :
    ∀ e ∈ es, ∃ v, evalEntry r env req res e = .ok v := by
  induction es generalizing acc with
  | nil => intro e he; cases he
  | cons e0 es ih =>
    intro e he
    simp only [buildAux] at h
    cases hv : evalEntry r env req res e0 with
    | error err => rw [hv] at h; cases h
    | ok v =>
      rw [hv] at h
      rcases List.mem_cons.mp he with h1 | h1
      · exact ⟨v, h1 ▸ hv⟩
      · exact ih _ h e h1

/-- If every entry evaluates, the build succeeds. -/
theorem buildAux_ok_of_all (r : Registry) (env : Env) (req : Req) (res : Res)
    (es : List (String × Option String))
    (h : ∀ e ∈ es, ∃ v, evalEntry r env req res e = .ok v) :
    ∀ acc, ∃ rec, buildAux r env req res es acc = .ok rec := by
  induction es with
  | nil => intro acc; exact ⟨acc, rfl⟩
  | cons e0 es ih =>
    intro acc
    obtain ⟨v, hv⟩ := h e0 (List.mem_cons_self e0 es)
    have h2 : ∀ e ∈ es, ∃ v, evalEntry r env req res e = .ok v :=
      fun e he => h e (List.mem_cons_of_mem e0 he)
    obtain ⟨rec, hrec⟩ := ih h2 (insertJS acc e0.1 v)
    exact ⟨rec, by simp only [buildAux, hv]; exact hrec⟩

/-- The keys of a built record: the accumulator's keys plus the entry
names. -/
theorem buildAux_keys (r : Registry) (env : Env) (req : Req) (res : Res)
    (es : List (String × Option String)) (acc rec : Rec)
    (h : buildAux r env req res es acc = .ok rec) (n : String) :
    n ∈ recKeys rec ↔ n ∈ recKeys acc ∨ n ∈ es.map Prod.fst := by
  induction es generalizing acc with
  | nil =>
    simp only [buildAux] at h
    cases h
    simp
  | cons e0 es ih =>
    simp only [buildAux] at h
    cases hv : evalEntry r env req res e0 with
    | error err => rw [hv] at h; cases h
    | ok v =>
      rw [hv] at h
      rw [ih _ h, mem_recKeys_insertJS]
      simp only [List.map_cons, List.mem_cons]
      tauto

/-- Every field of a built record is an accumulator field or comes from an
entry whose evaluation produced its value. -/
theorem buildAux_mem (r : Registry) (env : Env) (req : Req) (res : Res)
    (es : List (String × Option String)) (acc rec : Rec)
    (h : buildAux r env req res es acc = .ok rec) (p : String × TokVal)
    (hp : p ∈ rec) :
    p ∈ acc ∨ ∃ e ∈ es, p.1 = e.1 ∧ evalEntry r env req res e = .ok p.2 := by
  induction es generalizing acc with
  | nil =>
    simp only [buildAux] at h
    cases h
    exact Or.inl hp
  | cons e0 es ih =>
    simp only [buildAux] at h
    cases hv : evalEntry r env req res e0 with
    | error err => rw [hv] at h; cases h
    | ok v =>
      rw [hv] at h
      rcases ih _ h with h1 | ⟨e, he, h2, h3⟩
      · rcases mem_insertJS _ _ _ _ h1 with h2 | h2
        · exact Or.inl h2
        · refine Or.inr ⟨e0, List.mem_cons_self e0 es, ?_, ?_⟩
          · rw [h2]
          · rw [h2]; exact hv
      · exact Or.inr ⟨e, List.mem_cons_of_mem e0 he, h2, h3⟩

/-- A fold that keeps the last match ignores its seed whenever a match
exists. -/
theorem lastEntry_seed (es : List (String × Option String)) (n : String)
    (i : Option (String × Option String)) :
    es.foldl (fun acc e => if e.1 = n then some e else acc) i =
      match lastEntry es n with
      | some x => some x
      | none => i := by
  induction es generalizing i with
  | nil => simp [lastEntry]
  | cons e0 es ih =>
    simp only [lastEntry, List.foldl_cons] at ih ⊢
    rw [ih, ih (if e0.1 = n then some e0 else none)]
    cases hl : es.foldl (fun acc e => if e.1 = n then some e else acc) none <;>
      by_cases h : e0.1 = n <;> simp [h]

/-- Field lookup in a built record: the last entry with that name wins;
absent such an entry, the accumulator's field survives. -/
theorem buildAux_lookup (r : Registry) (env : Env) (req : Req) (res : Res)
    (es : List (String × Option String)) (acc rec : Rec)
    (h : buildAux r env req res es acc = .ok rec) (n : String) :
    jsLookup rec n =
      match lastEntry es n with
      | some e => (evalEntry r env req res e).toOption
      | none => jsLookup acc n := by
  induction es generalizing acc with
  | nil =>
    simp only [buildAux] at h
    cases h
    simp [lastEntry]
  | cons e0 es ih =>
    simp only [buildAux] at h
    cases hv : evalEntry r env req res e0 with
    | error err => rw [hv] at h; cases h
    | ok v =>
      rw [hv] at h
      have hrec := ih _ h
      have hle : lastEntry (e0 :: es) n =
          match lastEntry es n with
          | some x => some x
          | none => if e0.1 = n then some e0 else none := by
        simp only [lastEntry, List.foldl_cons]
        exact lastEntry_seed es n _
      rw [hrec, hle]
      cases hl : lastEntry es n with
      | some x => simp
      | none =>
        simp only []
        by_cases h0 : e0.1 = n
        · simp only [if_pos h0, hv, Except.toOption]
          rw [jsLookup_insertJS, if_pos h0.symm]
        · simp only [if_neg h0]
          rw [jsLookup_insertJS, if_neg (fun hn => h0 hn.symm)]

/-- A built record's keys are unique when the accumulator's are. -/
theorem buildAux_nodup (r : Registry) (env : Env) (req : Req) (res : Res)
    (es : List (String × Option String)) (acc rec : Rec)
    (hacc : (recKeys acc).Nodup)
    (h : buildAux r env req res es acc = .ok rec) : (recKeys rec).Nodup := by
  induction es generalizing acc with
  | nil =>
    simp only [buildAux] at h
    cases h
    exact hacc
  | cons e0 es ih =>
    simp only [buildAux] at h
    cases hv : evalEntry r env req res e0 with
    | error err => rw [hv] at h; cases h
    | ok v =>
      rw [hv] at h
      exact ih _ (nodup_insertJS _ _ _ hacc) h

/-- Inversion of a successful compile: the format passed the body check and
the returned builder is the record builder of its scan. -/
theorem compileStr_ok (fmt : String) (b : Builder)
    (h : compileStr fmt = .ok b) : b = recordBuilder fmt := by
  unfold compileStr at h
  by_cases hv : validFmt fmt
  · rw [if_pos hv] at h
    exact (Except.ok.injEq _ _).mp h.symm ▸ rfl
  · rw [if_neg hv] at h
    cases h

/-- The value the factory stores into the `options` slot: the raw options
object, or `undefined` when the factory was called without options. -/
def optsSlotVal : Option Opts → JSVal
  | some o => .opts o
  | none => .undefined

/-- A successful middleware construction wrote the raw options argument into
the module-global `options` slot of the function object. -/
theorem expressMongo_ok_registry (r : Registry) (fa : Option FmtArg)
    (opt : Option Opts) (rx : Registry) (cx : LoggerCfg) (wx : Bool)
    (h : expressMongo r fa opt = .ok (rx, cx, wx)) :
    rx = setProp r "options" (optsSlotVal opt) := by
  have hEq : expressMongo r fa opt =
      (match fa with
        | some (FmtArg.line f) => Except.ok f
        | some (FmtArg.str s) => (getFormatFunction r s).map applyFormatFn
        | none => (getFormatFunction r "default").map applyFormatFn).map
        (fun f =>
          (setProp r "options" (optsSlotVal opt),
           { immediate := (opt.getD {}).immediate, skip := (opt.getD {}).skip,
             url := (opt.getD {}).url, db := (opt.getD {}).db,
             collection := (opt.getD {}).collection, formatLine := f },
           ((opt.getD {}).url.isNone || (opt.getD {}).db.isNone ||
            (opt.getD {}).collection.isNone))) := rfl
  rw [hEq] at h
  cases hfl : (match fa with
      | some (FmtArg.line f) => Except.ok f
      | some (FmtArg.str s) => (getFormatFunction r s).map applyFormatFn
      | none => (getFormatFunction r "default").map applyFormatFn) with
  | error e => rw [hfl] at h; cases h
  | ok f =>
    rw [hfl] at h
    simp only [Except.map] at h
    have h2 := (Except.ok.injEq _ _).mp h
    exact (congrArg Prod.fst h2).symm

/-- C7: `compile` signals a programming error immediately for every
non-string input: it throws a TypeError at compile/setup time instead of
deferring the failure to request/evaluation time. -/
theorem compile_non_string_typeError (v : JSVal) (h : ∀ s, v ≠ JSVal.str s) :
    compileJS v = .error .typeError := by
  cases v with
  | fn f => rfl
  | str s => exact absurd rfl (h s)
  | opts o => rfl
  | undefined => rfl

/-- C7 witness: the concrete non-string argument `undefined`. -/
theorem compile_non_string_typeError_witness :
    compileJS JSVal.undefined = .error .typeError :=
  compile_non_string_typeError JSVal.undefined (fun _ h => JSVal.noConfusion h)

/-- C8: the token registry and the format catalog are the same mapping, the
properties of the exported function object: `format` performs literally the
assignment `token` performs, so a format definition overwrites a token of
the same name and vice versa, and a named-format lookup of a token's name
returns that token's resolver uncompiled. -/
theorem token_format_one_mapping (r : Registry) (n : String) (f : Resolver)
    (s : String) :
    format r n (.fn f) = token r n f ∧
    getProp (format (token r n f) n (.str s)) n = some (.str s) ∧
    getProp (token (format r n (.str s)) n f) n = some (.fn f) ∧
    getFormatFunction (token r n f) n = .ok (.ofResolver f) := by
  refine ⟨rfl, getProp_setProp_self _ _ _, getProp_setProp_self _ _ _, ?_⟩
  unfold getFormatFunction getPropV
  rw [show getProp (token r n f) n = some (JSVal.fn f) from getProp_setProp_self _ _ _]
  rfl

/-- C4 counterexample: with the middleware configured for immediate logging
and the `tiny` format, the record inserted at the immediate trigger carries
`response-time: undefined` -- the second (response) timestamp pair was never
captured at request arrival, so the response-time token cannot compute an
elapsed duration, contradicting the claim that both capture points have
fired by the immediate trigger. -/
theorem immediate_response_time_absent_counterexample :
    counterC4run = .ok [⟨some "u", some "d", some "c",
      [[("method", .str "GET"), ("url", .str "/foo"), ("status", .undefined),
        ("res", .undefined), ("response-time", .undefined)]]⟩] := by decide

/-- C4 amended: in immediate mode the logger runs `logRequest` directly
after the arrival prologue; no `onHeaders` listener is installed, the
response start slot is still unset at the trigger, and the response-time
token therefore resolves to absent. -/
theorem immediate_no_second_capture (cfg : LoggerCfg) (r : Registry)
    (env : Env) (req : Req) (res : Res) (t : Hr) (d : Int) (arg : Option String) :
    runImmediate cfg r env req res t d =
      (logRequest cfg r env (reqAtStart req t d) (resAtStart res)).map
        (fun cs => (reqAtStart req t d, resAtStart res, cs)) ∧
    (resAtStart res)._startAt = none ∧
    getResponseTimeToken env (reqAtStart req t d) (resAtStart res) arg = .ok .undefined :=
  ⟨rfl, rfl, rfl⟩

/-- C3 amended: a skip predicate returning true at the trigger point, or a
format line returning a null/undefined line, yields zero sink calls and no
error, in immediate as well as deferred mode.  (An all-absent *record* is
not null and is inserted; see the counterexample.) -/
theorem skip_or_null_line_no_sink :
    (∀ cfg r env p req res t d, cfg.skip = some p →
      p (reqAtStart req t d) (resAtStart res) = true →
      runImmediate cfg r env req res t d =
        .ok (reqAtStart req t d, resAtStart res, [])) ∧
    (∀ cfg r env p req resFin t d hdr, cfg.skip = some p →
      p (reqAtStart req t d) (resAtFinish resFin hdr) = true →
      runDeferred cfg r env req resFin t d hdr =
        .ok (reqAtStart req t d, resAtFinish resFin hdr, [])) ∧
    (∀ cfg r env req res t d,
      (match cfg.skip with
        | some p => p (reqAtStart req t d) (resAtStart res)
        | none => false) = false →
      cfg.formatLine r env (reqAtStart req t d) (resAtStart res) = .ok none →
      runImmediate cfg r env req res t d =
        .ok (reqAtStart req t d, resAtStart res, [])) ∧
    (∀ cfg r env req resFin t d hdr,
      (match cfg.skip with
        | some p => p (reqAtStart req t d) (resAtFinish resFin hdr)
        | none => false) = false →
      cfg.formatLine r env (reqAtStart req t d) (resAtFinish resFin hdr) = .ok none →
      runDeferred cfg r env req resFin t d hdr =
        .ok (reqAtStart req t d, resAtFinish resFin hdr, [])) := by
  refine ⟨?_, ?_, ?_, ?_⟩
  · intro cfg r env p req res t d hs hp
    simp [runImmediate, logRequest, hs, hp, Except.map]
  · intro cfg r env p req resFin t d hdr hs hp
    simp [runDeferred, logRequest, hs, hp, Except.map]
  · intro cfg r env req res t d hs hl
    simp [runImmediate, logRequest, hs, hl, Except.map]
  · intro cfg r env req resFin t d hdr hs hl
    simp [runDeferred, logRequest, hs, hl, Except.map]

/-- C3 witness: a concrete configuration whose skip predicate accepts every
request makes zero sink calls and throws nothing. -/
theorem skip_or_null_line_no_sink_witness :
    runImmediate cfgSkipAll initRegistry env0 req0 res0 t0 d0 =
      .ok (reqAtStart req0 t0 d0, resAtStart res0, []) :=
  skip_or_null_line_no_sink.1 cfgSkipAll initRegistry env0 (fun _ _ => true)
    req0 res0 t0 d0 rfl rfl

/-- C3 counterexample: an all-absent record is not a null builder result --
the end-to-end immediate run with format `":response-time"` produces the
record `{response-time: undefined}`, every field absent, and still makes one
sink call with it, contradicting the claim that an all-absent record
produces zero persistence writes. -/
theorem all_absent_record_inserted_counterexample :
    counterC3run = .ok [⟨some "u", some "d", some "c",
      [[("response-time", TokVal.undefined)]]⟩] ∧
    ([(("response-time" : String), TokVal.undefined)].all (fun p => p.2 == TokVal.undefined)) = true := by
  exact ⟨by decide, by decide⟩

/-- C1 counterexample: a template referencing the unregistered token name
`bogus` compiles, but evaluating the builder throws a TypeError
(`tokens["bogus"]` is `undefined` and is called), failing the whole record
instead of treating the token as absent and producing the record for the
other tokens. -/
theorem unregistered_token_counterexample :
    bogusEval = .error .typeError := by decide

/-- C1 amended: for every compiled builder and every template placeholder
whose name has no resolver registered at evaluation time, evaluating the
builder fails (no record at all is produced): the generated code calls the
missing property, which throws a TypeError. -/
theorem unregistered_token_record_fails (fmt : String) (r : Registry)
    (env : Env) (req : Req) (res : Res) (b : Builder)
    (e : String × Option String)
    (hb : compileStr fmt = .ok b)
    (he : e ∈ entriesOf (scanSegs fmt))
    (hbad : ∀ f, getProp r e.1 ≠ some (.fn f)) :
    ∀ rec, b r env req res ≠ .ok rec := by
  intro rec hrec
  rw [compileStr_ok fmt b hb] at hrec
  obtain ⟨v, hv⟩ := buildAux_all_ok r env req res _ [] rec hrec e he
  unfold evalEntry at hv
  cases hg : getProp r e.1 with
  | none => rw [hg] at hv; cases hv
  | some w =>
    cases w with
    | fn f => exact hbad f hg
    | str s => rw [hg] at hv; cases hv
    | opts o => rw [hg] at hv; cases hv
    | undefined => rw [hg] at hv; cases hv

/-- C1 witness for the amended claim: the concrete template
`":bogus :method"` on the standard registry never yields a record. -/
theorem unregistered_token_record_fails_witness :
    bogusEval ≠ .ok [] := by
  intro hc
  refine unregistered_token_record_fails ":bogus :method" initRegistry env0 req0
    res0 (recordBuilder ":bogus :method") ("bogus", none) rfl (by decide) ?_ [] ?_
  · intro f hf
    rw [show getProp initRegistry "bogus" = none from rfl] at hf
    cases hf
  · unfold bogusEval at hc
    exact hc

/-- C2 counterexample: literal text is not discarded by the compiler -- it
stays verbatim in the generated function body.  For the template
`"hello :method world"`, whose placeholders are all valid, the assembled
body is not well-formed and the Function constructor rejects it: compile
fails instead of producing a builder. -/
theorem compile_literal_text_counterexample :
    compileStr "hello :method world" = .error .badBody := rfl

/-- C2 amended: for every nonempty template whose literal text survives the
final-character trim only as whitespace, compile succeeds and the builder's
record contains exactly the placeholder names of the template (whitespace
literal text is discarded), each field's value produced by the registered
resolver of one of its occurrences; a whitespace-only template yields an
empty record. -/
theorem compile_whitespace_template_record (fmt : String) (r : Registry)
    (env : Env) (req : Req) (res : Res)
    (hv : validFmt fmt = true)
    (hok : ∀ e ∈ entriesOf (scanSegs fmt), ∃ v, evalEntry r env req res e = .ok v) :
    ∃ b, compileStr fmt = .ok b ∧ ∃ rec, b r env req res = .ok rec ∧
      (∀ n, n ∈ recKeys rec ↔ n ∈ (entriesOf (scanSegs fmt)).map Prod.fst) ∧
      (∀ p, p ∈ rec → ∃ e, e ∈ entriesOf (scanSegs fmt) ∧ p.1 = e.1 ∧
        evalEntry r env req res e = .ok p.2) ∧
      (entriesOf (scanSegs fmt) = [] → rec = []) := by
  refine ⟨recordBuilder fmt, by simp [compileStr, hv], ?_⟩
  obtain ⟨rec, hrec⟩ := buildAux_ok_of_all r env req res _ hok []
  refine ⟨rec, hrec, ?_, ?_, ?_⟩
  · intro n
    have h := buildAux_keys r env req res _ [] rec hrec n
    simpa [recKeys] using h
  · intro p hp
    rcases buildAux_mem r env req res _ [] rec hrec p hp with h | ⟨e, he, h1, h2⟩
    · cases h
    · exact ⟨e, he, h1, h2⟩
  · intro hent
    rw [hent] at hrec
    simp only [buildAux] at hrec
    exact ((Except.ok.injEq _ _).mp hrec).symm

/-- C2 witness for the amended claim: the template `":method :url"` on the
standard registry, with both token fields present in the record. -/
theorem compile_whitespace_template_record_witness :
    ∃ b, compileStr ":method :url" = .ok b ∧
      ∃ rec, b initRegistry env0 req0 res0 = .ok rec ∧
        ("method" ∈ recKeys rec ∧ "url" ∈ recKeys rec) := by
  have hok : ∀ e ∈ entriesOf (scanSegs ":method :url"),
      ∃ v, evalEntry initRegistry env0 req0 res0 e = .ok v := by
    intro e he
    rw [show entriesOf (scanSegs ":method :url") =
      [("method", none), ("url", none)] from rfl] at he
    rcases List.mem_cons.mp he with rfl | he2
    · exact ⟨.str "GET", rfl⟩
    rcases List.mem_cons.mp he2 with rfl | he3
    · exact ⟨.str "/foo", rfl⟩
    · cases he3
  obtain ⟨b, hb, rec, hrec, hkeys, -, -⟩ :=
    compile_whitespace_template_record ":method :url" initRegistry env0 req0 res0
      (by decide) hok
  exact ⟨b, hb, rec, hrec, (hkeys "method").mpr (by decide),
    (hkeys "url").mpr (by decide)⟩

/-- C5 counterexample: the `tiny` format record is keyed by the bare token
names -- the bracket argument is not part of the key.  The keys are
`method, url, status, res, response-time`; no key `res[content-length]`
exists, contradicting the claimed key set. -/
theorem bracket_key_counterexample :
    (tinyEval.map recKeys) =
      .ok ["method", "url", "status", "res", "response-time"] ∧
    ¬ ("res[content-length]" ∈ ["method", "url", "status", "res", "response-time"]) := by
  exact ⟨by decide, by decide⟩

/-- C5 amended: a placeholder `:name[arg]` produces a record field keyed by
the bare token name `name` (the bracketed argument selects the header but
does not appear in the key).  In particular the `tiny` scenario -- `GET
/foo`, status 200, `Content-Length: 5`, headers at 12.345 ms -- yields the
record `{method: "GET", url: "/foo", status: 200, res: "5",
response-time: 12.345}`. -/
theorem tiny_record_bare_keys :
    tinyEval = .ok [("method", .str "GET"), ("url", .str "/foo"),
      ("status", .num 200), ("res", .str "5"),
      ("response-time", .num (12345 / 1000))] := by decide

/-- C6: when both start timestamps are present the response-time token
returns the monotonic elapsed time converted to milliseconds, rounded
through `toFixed` to the digit count of its argument, whose default is 3;
when either timestamp pair is missing the token is absent. -/
theorem response_time_elapsed_formula :
    (∀ env req res arg a b, req._startAt = some a → res._startAt = some b →
      getResponseTimeToken env req res arg =
        .ok (.num (toFixedQ ((hrNanos b - hrNanos a) / 1000000) (digitsOfArg arg)))) ∧
    (∀ env req res arg, req._startAt = none ∨ res._startAt = none →
      getResponseTimeToken env req res arg = .ok .undefined) ∧
    digitsOfArg none = 3 := by
  refine ⟨?_, ?_, rfl⟩
  · intro env req res arg a b ha hb
    unfold getResponseTimeToken
    rw [ha, hb]
    have harith : ((b.sec : ℚ) - (a.sec : ℚ)) * 1000 +
        ((b.nsec : ℚ) - (a.nsec : ℚ)) * (1 / 1000000) =
        (hrNanos b - hrNanos a) / 1000000 := by
      unfold hrNanos
      ring
    exact congrArg (fun x =>
      Except.ok (TokVal.num (toFixedQ x (digitsOfArg arg)))) harith
  · intro env req res arg h
    unfold getResponseTimeToken
    rcases h with h | h
    · rw [h]
    · rw [h]
      cases hx : req._startAt <;> rfl

/-- C6 witness: the scenario timestamps (12.345 ms elapsed) with the default
digit count. -/
theorem response_time_elapsed_formula_witness :
    getResponseTimeToken env0 req1 res1 none =
      .ok (.num (toFixedQ ((hrNanos ⟨0, 12345000⟩ - hrNanos t0) / 1000000)
        (digitsOfArg none))) :=
  response_time_elapsed_formula.1 env0 req1 res1 none t0 ⟨0, 12345000⟩ rfl rfl

/-- C9: a compiled record has unique keys, and a field's value is the one of
the *last* placeholder occurrence with that name: duplicate placeholders
with different bracket arguments collapse to a single field carrying the
last argument's resolution. -/
theorem duplicate_name_last_occurrence_wins (fmt : String) (r : Registry)
    (env : Env) (req : Req) (res : Res) (b : Builder) (rec : Rec)
    (hb : compileStr fmt = .ok b) (hr : b r env req res = .ok rec) :
    (recKeys rec).Nodup ∧
    ∀ n, jsLookup rec n =
      match lastEntry (entriesOf (scanSegs fmt)) n with
      | some e => (evalEntry r env req res e).toOption
      | none => none := by
  rw [compileStr_ok fmt b hb] at hr
  constructor
  · exact buildAux_nodup r env req res _ [] rec (by simp [recKeys]) hr
  · intro n
    rw [buildAux_lookup r env req res _ [] rec hr n]
    cases lastEntry (entriesOf (scanSegs fmt)) n with
    | some e => rfl
    | none => simp [jsLookup, List.find?]

/-- C9 witness: the template `":req[a] :req[b]"` with headers `a: 1` and
`b: 2` yields the single field `req` holding the value of the last
occurrence, the `b` header. -/
theorem duplicate_name_last_occurrence_wins_witness :
    jsLookup [("req", TokVal.str "2")] "req" =
      match lastEntry (entriesOf (scanSegs ":req[a] :req[b]")) "req" with
      | some e => (evalEntry initRegistry env0 req0 res0 e).toOption
      | none => none :=
  (duplicate_name_last_occurrence_wins ":req[a] :req[b]" initRegistry env0 req0
    res0 (recordBuilder ":req[a] :req[b]") [("req", TokVal.str "2")] rfl
    (by decide)).2 "req"

/-- C10: `retrieveDB` reads its target from the single module-global
`options` slot, which every factory call overwrites with its raw options
argument: after constructing two instances, `retrieveDB` queries the second
instance's target, and when the most recent instance was constructed with
no options the slot holds `undefined` and `retrieveDB` throws instead of
querying. -/
theorem retrieveDB_latest_options (r : Registry) (f1 f2 : Option FmtArg)
    (o1 o2 : Opts) (q : QueryOpts) (r1 r2 : Registry) (c1 c2 : LoggerCfg)
    (w1 w2 : Bool)
    (h1 : expressMongo r f1 (some o1) = .ok (r1, c1, w1))
    (h2 : expressMongo r1 f2 (some o2) = .ok (r2, c2, w2)) :
    retrieveDB r2 q = .ok (findDB o2.url o2.db o2.collection q) ∧
    (∀ r3 c3 w3, expressMongo r1 f2 none = .ok (r3, c3, w3) →
      retrieveDB r3 q = .error .typeError) := by
  constructor
  · rw [expressMongo_ok_registry r1 f2 (some o2) r2 c2 w2 h2]
    simp [retrieveDB, getProp_setProp_self, optsSlotVal]
  · intro r3 c3 w3 h3
    rw [expressMongo_ok_registry r1 f2 none r3 c3 w3 h3]
    simp [retrieveDB, getProp_setProp_self, optsSlotVal]

/-- C10 witness: two concrete constructions, the second with target
`u2/d2/c2`; `retrieveDB` queries that target, and after a construction with
no options it throws. -/
theorem retrieveDB_latest_options_witness :
    retrieveDB (setProp (setProp [] "options" (.opts o1w)) "options" (.opts o2w)) {} =
      .ok (findDB o2w.url o2w.db o2w.collection {}) ∧
    retrieveDB (setProp (setProp [] "options" (.opts o1w)) "options" .undefined) {} =
      .error .typeError := by
  have h := retrieveDB_latest_options [] (some (.line noopLine))
    (some (.line noopLine)) o1w o2w {}
    (setProp [] "options" (.opts o1w))
    (setProp (setProp [] "options" (.opts o1w)) "options" (.opts o2w))
    ⟨false, none, some "u1", some "d1", some "c1", noopLine⟩
    ⟨false, none, some "u2", some "d2", some "c2", noopLine⟩
    false false rfl rfl
  exact ⟨h.1, h.2 (setProp (setProp [] "options" (.opts o1w)) "options" .undefined)
    ⟨false, none, none, none, none, noopLine⟩ true rfl⟩

end ELM
